import Mathlib

/-!
Verification of the RAPP Desktop repository: the desktop chat client
(`src/App.tsx`) and the RAPP OS "Brain Stem" orchestration endpoint that the
client talks to.  The client-side definitions are translated directly from
`src/App.tsx`; the server-side components (Session Store, Capability Registry,
Context Store, Dispatcher) are shipped as `rapp_os` Python files that are not
part of the checked-in sources, so they are modelled from the repository's
specification, as marked on each definition.
-/

set_option maxHeartbeats 1000000

namespace RappOS

/-- Message role in the chat log (`App.tsx`, `ChatMessage.role`). -/
inductive Role where
  | user
  | assistant
deriving DecidableEq, Repr

/-- How the client serializes a role into the conversation history. -/
def roleText : Role → String
  | .user => "user"
  | .assistant => "assistant"

/-- One chat message in the desktop client state (`App.tsx`, `interface ChatMessage`). -/
structure ChatMessage where
  role : Role
  content : String
  timestamp : Nat
  agentsUsed : Option (List String)
deriving DecidableEq, Repr

/-- Body of a `POST /api/rapp` request exactly as built by `sendMessage`
(`App.tsx` lines 190-201): `session_guid` is `null` when the stored session
identifier is empty, and the conversation history carries role/content pairs. -/
structure ChatRequest where
  user_input : String
  user_guid : String
  session_guid : Option String
  context_guid : String
  conversation_history : List (Role × String)
deriving DecidableEq, Repr

/-- Body of a `POST /api/rapp` response as declared by the client
(`App.tsx`, `interface ChatResponse`, lines 38-45).  Beside the five mandatory
fields it declares an optional `voice_response` field. -/
structure ChatResponse where
  response : String
  voice_response : Option String
  agent_logs : List String
  agents_used : List String
  session_guid : String
  context_guid : String
deriving DecidableEq, Repr

/-- Minimal JSON value model, used to state which top-level fields the HTTP
bodies of the `/api/rapp` surface carry. -/
inductive JVal where
  | str (s : String)
  | nul
  | arr (elems : List JVal)
  | obj (fields : List (String × JVal))

/-- JSON serialization of a chat request: the exact association list of
top-level fields produced from the object literal in `sendMessage`
(`App.tsx` lines 191-200). -/
def encodeChatRequest (q : ChatRequest) : List (String × JVal) :=
  [("user_input", .str q.user_input),
   ("user_guid", .str q.user_guid),
   ("session_guid", match q.session_guid with | some s => .str s | none => .nul),
   ("context_guid", .str q.context_guid),
   ("conversation_history",
     .arr (q.conversation_history.map
       (fun p => .obj [("role", .str (roleText p.1)), ("content", .str p.2)])))]

/-- JSON serialization of a chat response per the client's `ChatResponse`
declaration (`App.tsx` lines 38-45): `voice_response` is present exactly when
the optional field is set. -/
def encodeChatResponse (r : ChatResponse) : List (String × JVal) :=
  [("response", .str r.response)] ++
  (match r.voice_response with | some v => [("voice_response", .str v)] | none => []) ++
  [("agent_logs", .arr (r.agent_logs.map .str)),
   ("agents_used", .arr (r.agents_used.map .str)),
   ("session_guid", .str r.session_guid),
   ("context_guid", .str r.context_guid)]

/-- The five response fields the specification's interface table promises for
`POST /api/rapp` (spec section 6). -/
def specClaimedResponseFields : List String :=
  ["response", "agent_logs", "agents_used", "session_guid", "context_guid"]

/-- The chat-relevant React state of the desktop client (`App.tsx` lines 60-63). -/
structure ChatState where
  chatMessages : List ChatMessage
  chatInput : String
  sessionGuid : String
  chatLoading : Bool
deriving DecidableEq, Repr

/-- One full run of `sendMessage` (`App.tsx` lines 176-225), given the outcome
of the `chat_with_rapp` invocation.  Returns the resulting client state and the
request that was issued, if any.  Faithful to the source: the guard returns
early on blank input or an in-flight request; the conversation history sent is
the message list from before the user message was appended; on success the
stored session identifier is overwritten only by a truthy `session_guid`; on
failure an error message is appended and the session identifier is untouched. -/
def sendMessage (s : ChatState) (now : Nat) (result : Except String ChatResponse) :
    ChatState × Option ChatRequest :=
  if s.chatInput.trim = "" ∨ s.chatLoading = true then (s, none)
  else
    let userMessage : ChatMessage := ⟨.user, s.chatInput.trim, now, none⟩
    let req : ChatRequest :=
      { user_input := userMessage.content
        user_guid := "desktop"
        session_guid := if s.sessionGuid = "" then none else some s.sessionGuid
        context_guid := "default"
        conversation_history := s.chatMessages.map (fun m => (m.role, m.content)) }
    match result with
    | .ok resp =>
      let newGuid := if resp.session_guid = "" then s.sessionGuid else resp.session_guid
      let assistantMessage : ChatMessage := ⟨.assistant, resp.response, now, some resp.agents_used⟩
      ({ chatMessages := s.chatMessages ++ [userMessage, assistantMessage]
         chatInput := ""
         sessionGuid := newGuid
         chatLoading := false }, some req)
    | .error e =>
      let errorMessage : ChatMessage :=
        ⟨.assistant, "Error: " ++ e ++ ". Make sure RAPP OS is running.", now, none⟩
      ({ chatMessages := s.chatMessages ++ [userMessage, errorMessage]
         chatInput := ""
         sessionGuid := s.sessionGuid
         chatLoading := false }, some req)

/-- `clearChat` (`App.tsx` lines 227-230): empties the message list and resets
the stored session identifier to the empty string. -/
def clearChat (s : ChatState) : ChatState :=
  { s with chatMessages := [], sessionGuid := "" }

/-- Association-list lookup keyed by strings, returning the first match. -/
def alookup {α : Type} : List (String × α) → String → Option α
  | [], _ => none
  | p :: rest, k => if p.1 = k then some p.2 else alookup rest k

/-- Replace the value of the first entry with the given key, leaving every
other entry untouched. -/
def updateFirst {α : Type} (k : String) (v : α) : List (String × α) → List (String × α)
  | [] => []
  | p :: rest => if p.1 = k then (p.1, v) :: rest else p :: updateFirst k v rest

/-- Modelled from the spec: a `Turn` in a session log (spec section 3) — one
role-tagged entry with text, arrival timestamp, the ordered list of capability
names invoked, and a free-form trace log.  The `rapp_os` session-store code is
not among the checked-in sources. -/
structure Turn where
  role : Role
  text : String
  timestamp : Nat
  capabilitiesInvoked : List String
  trace : List String
deriving DecidableEq, Repr

/-- Modelled from the spec: one session record of the Session Store — the user
identity that created the session and its append-only ordered log. -/
structure SessionRec where
  owner : String
  log : List Turn
deriving DecidableEq, Repr

/-- Modelled from the spec: the Session Store (spec section 4.3) — the mapping
from session identifier to session record, plus the counter from which fresh
session identifiers are minted.  The `rapp_os` session-store code is not among
the checked-in sources. -/
structure SessionStore where
  sessions : List (String × SessionRec)
  nextFresh : Nat
deriving DecidableEq, Repr

/-- Modelled from the spec: the fresh session identifier allocated for the
`n`-th minting. -/
def mintSessionId (n : Nat) : String := "session-" ++ toString n

/-- Look up a session record by its identifier. -/
def SessionStore.lookup (st : SessionStore) (sid : String) : Option SessionRec :=
  alookup st.sessions sid

/-- The ordered log of a session, empty when the session does not exist. -/
def SessionStore.history (st : SessionStore) (sid : String) : List Turn :=
  ((st.lookup sid).map SessionRec.log).getD []

/-- Error raised when a session is presented with a user identity other than
the one that created it (spec section 7). -/
inductive AppendError where
  | sessionIdentityMismatch
deriving DecidableEq, Repr

/-- Modelled from the spec: `append` of the Session Store (spec section 4.3).
An absent/empty session identifier makes the store allocate a fresh identifier
and return it — the only path that mints identifiers.  A presented identifier
resumes the session when its owner matches, creates it lazily when unknown,
and is rejected with `sessionIdentityMismatch` (store untouched) when owned by
a different user. -/
def SessionStore.append (st : SessionStore) (user sid : String) (turns : List Turn) :
    Except AppendError (SessionStore × String) :=
  if sid = "" then
    let fresh := mintSessionId st.nextFresh
    .ok ({ sessions := st.sessions ++ [(fresh, ⟨user, turns⟩)],
           nextFresh := st.nextFresh + 1 }, fresh)
  else
    match st.lookup sid with
    | none =>
      .ok ({ sessions := st.sessions ++ [(sid, ⟨user, turns⟩)],
             nextFresh := st.nextFresh }, sid)
    | some r =>
      if r.owner = user then
        .ok ({ sessions := updateFirst sid ⟨r.owner, r.log ++ turns⟩ st.sessions,
               nextFresh := st.nextFresh }, sid)
      else
        .error .sessionIdentityMismatch

/-- The minting counter dominates every identifier it could still produce:
no identifier mintable at or beyond `nextFresh` is in use. -/
def SessionStore.freshOk (st : SessionStore) : Prop :=
  ∀ k, st.nextFresh ≤ k → st.lookup (mintSessionId k) = none

/-- Modelled from the spec: the metadata a capability plugin declares — a name,
a description and a parameter schema (spec section 6, plugin contract; README
`MyAgent` example). -/
structure AgentDef where
  name : String
  description : String
  parameters : List (String × String)
deriving DecidableEq, Repr

/-- Modelled from the spec: a registered capability descriptor held by the
Capability Registry (spec section 3). -/
structure CapabilityDescriptor where
  name : String
  description : String
  parameters : List (String × String)
deriving DecidableEq, Repr

/-- The descriptor registered for a source definition: exactly the declared
metadata. -/
def toDescriptor (d : AgentDef) : CapabilityDescriptor :=
  ⟨d.name, d.description, d.parameters⟩

/-- Modelled from the spec: one file found in the capability directory — either
it parses to a definition or it is malformed with a parse error. -/
inductive AgentFile where
  | valid (filename : String) (d : AgentDef)
  | malformed (filename : String) (err : String)
deriving DecidableEq, Repr

/-- Modelled from the spec: a Registry snapshot (spec section 4.1) — the loaded
descriptors in discovery order together with the list of failed entries. -/
structure RegistrySnapshot where
  caps : List CapabilityDescriptor
  failed : List (String × String)
deriving DecidableEq, Repr

/-- The definitions of the files that parse, in discovery order. -/
def validDefs : List AgentFile → List AgentDef
  | [] => []
  | .valid _ d :: rest => d :: validDefs rest
  | .malformed _ _ :: rest => validDefs rest

/-- The malformed files paired with their parse errors, in discovery order. -/
def malformedEntries : List AgentFile → List (String × String)
  | [] => []
  | .valid _ _ :: rest => malformedEntries rest
  | .malformed fn e :: rest => (fn, e) :: malformedEntries rest

/-- Modelled from the spec: loading one capability file (spec sections 4.1 and
9).  A malformed file, an empty name, or a name already registered is recorded
as a failed entry; otherwise the descriptor is appended to the snapshot. -/
def loadStep (snap : RegistrySnapshot) : AgentFile → RegistrySnapshot
  | .malformed fn e => { snap with failed := snap.failed ++ [(fn, e)] }
  | .valid fn d =>
    if d.name = "" then { snap with failed := snap.failed ++ [(fn, "missing agent name")] }
    else if snap.caps.any (fun c => decide (c.name = d.name)) then
      { snap with failed := snap.failed ++ [(fn, "duplicate agent name")] }
    else { snap with caps := snap.caps ++ [toDescriptor d] }

/-- Load a list of capability files into a snapshot, one file at a time;
failures never abort the remaining files. -/
def loadInto (snap : RegistrySnapshot) : List AgentFile → RegistrySnapshot
  | [] => snap
  | f :: rest => loadInto (loadStep snap f) rest

/-- Modelled from the spec: a full Registry load over a capability directory
(spec section 4.1), starting from an empty snapshot. -/
def loadRegistry (files : List AgentFile) : RegistrySnapshot :=
  loadInto ⟨[], []⟩ files

/-- Modelled from the spec: the descriptor list served by `GET /agents`. -/
def listAgents (snap : RegistrySnapshot) : List CapabilityDescriptor :=
  snap.caps

/-- Resolve a capability name in a Registry snapshot. -/
def RegistrySnapshot.resolve (snap : RegistrySnapshot) (name : String) :
    Option CapabilityDescriptor :=
  snap.caps.find? (fun c => decide (c.name = name))

/-- Modelled from the spec: a named Context (spec section 3) — an allow-list of
capability names plus static parameters. -/
structure Context where
  allowedAgents : List String
  params : List (String × String)
deriving DecidableEq, Repr

/-- Resolve a context identifier in the Context Store's loaded mapping. -/
def clookup (contexts : List (String × Context)) (cid : String) : Option Context :=
  alookup contexts cid

/-- Modelled from the spec: what a capability handler does when it is actually
called — it returns a result, raises, or times out (spec sections 4.1 and 5). -/
inductive HandlerBehavior where
  | ok (r : String)
  | raised (e : String)
  | timedOut
deriving DecidableEq, Repr

/-- Modelled from the spec: the typed outcome of one capability invocation. -/
inductive CapabilityOutcome where
  | success (r : String)
  | failure (e : String)
deriving DecidableEq, Repr

/-- Modelled from the spec: `invoke` of the Registry (spec section 4.1) —
any raise or timeout is caught and converted into a typed failure outcome
rather than propagating. -/
def invokeCap : HandlerBehavior → CapabilityOutcome
  | .ok r => .success r
  | .raised e => .failure ("handler raised: " ++ e)
  | .timedOut => .failure "handler timed out"

/-- Modelled from the spec: one capability proposal of the pluggable selection
step — a capability name with named arguments (spec section 4.4). -/
structure Selection where
  name : String
  args : List (String × String)
deriving DecidableEq, Repr

/-- The proposals that survive filtering against the context's allow-list. -/
def allowedSel (ctx : Context) (proposed : List Selection) : List Selection :=
  proposed.filter (fun s => decide (s.name ∈ ctx.allowedAgents))

/-- Trace entries recorded for the proposals dropped by the allow-list filter. -/
def droppedLogs (ctx : Context) (proposed : List Selection) : List String :=
  (proposed.filter (fun s => decide (s.name ∉ ctx.allowedAgents))).map
    (fun s => "Dropped disallowed capability: " ++ s.name)

/-- Invoke one selected capability through the Registry: an unknown name yields
a typed failure outcome, a known one runs the handler under `invokeCap`. -/
def invokeSelected (snap : RegistrySnapshot) (behave : Selection → HandlerBehavior)
    (s : Selection) : CapabilityOutcome :=
  match snap.resolve s.name with
  | some _ => invokeCap (behave s)
  | none => .failure ("capability not found: " ++ s.name)

/-- The trace line recorded for one capability outcome. -/
def outcomeLog (name : String) : CapabilityOutcome → String
  | .success r => name ++ ": success: " ++ r
  | .failure e => name ++ ": failure: " ++ e

/-- Outcomes of one turn, recorded in the order the capabilities were selected. -/
def turnOutcomes (snap : RegistrySnapshot) (ctx : Context) (proposed : List Selection)
    (behave : Selection → HandlerBehavior) : List (String × CapabilityOutcome) :=
  (allowedSel ctx proposed).map (fun s => (s.name, invokeSelected snap behave s))

/-- The full agent log of one turn: dropped-proposal entries followed by one
entry per invoked capability. -/
def turnLogs (snap : RegistrySnapshot) (ctx : Context) (proposed : List Selection)
    (behave : Selection → HandlerBehavior) : List String :=
  droppedLogs ctx proposed ++
    (turnOutcomes snap ctx proposed behave).map (fun p => outcomeLog p.1 p.2)

/-- Modelled from the spec: response composition (spec section 4.4) — outcomes
are folded into one text, and zero successful invocations still yield a
best-effort non-empty response. -/
def composeResponse (outcomes : List (String × CapabilityOutcome)) : String :=
  let successes := outcomes.filterMap
    (fun p => match p.2 with | .success r => some r | .failure _ => none)
  if successes.isEmpty then "I could not complete any agent action for this request."
  else String.intercalate "\n" successes

/-- The composed response text of one turn. -/
def turnResponse (snap : RegistrySnapshot) (ctx : Context) (proposed : List Selection)
    (behave : Selection → HandlerBehavior) : String :=
  composeResponse (turnOutcomes snap ctx proposed behave)

/-- The names of the capabilities invoked in one turn. -/
def usedNames (ctx : Context) (proposed : List Selection) : List String :=
  (allowedSel ctx proposed).map Selection.name

/-- The user-side turn appended for one dispatch. -/
def userTurn (input : String) (now : Nat) : Turn :=
  ⟨.user, input, now, [], []⟩

/-- The assistant-side turn appended for one dispatch. -/
def asstTurn (snap : RegistrySnapshot) (ctx : Context) (proposed : List Selection)
    (behave : Selection → HandlerBehavior) (now : Nat) : Turn :=
  ⟨.assistant, turnResponse snap ctx proposed behave, now, usedNames ctx proposed,
    turnLogs snap ctx proposed behave⟩

/-- Modelled from the spec: the `DispatchResult` returned to the caller
(spec section 3), serialized over HTTP as `response`, `agent_logs`,
`agents_used`, `session_guid`, `context_guid`. -/
structure DispatchResult where
  response : String
  agentLogs : List String
  agentsUsed : List String
  sessionGuid : String
  contextGuid : String
deriving DecidableEq, Repr

/-- Modelled from the spec: the typed dispatch errors reported to the caller. -/
inductive DispatchError where
  | contextNotFound (cid : String)
  | sessionIdentityMismatch
deriving DecidableEq, Repr

/-- Modelled from the spec: the Dispatcher state machine for one turn
(spec section 4.4).  Context resolution first; the external selection step's
proposals are filtered against the allow-list; each surviving capability is
invoked through the Registry with failures captured as typed outcomes; the
outcomes are composed; finally exactly one request/response pair is appended to
the Session Store.  Any failure leaves the store exactly as it was. -/
def dispatch (snap : RegistrySnapshot) (contexts : List (String × Context))
    (st : SessionStore) (user sid ctxId input : String) (now : Nat)
    (proposed : List Selection) (behave : Selection → HandlerBehavior) :
    SessionStore × Except DispatchError DispatchResult :=
  match clookup contexts ctxId with
  | none => (st, .error (.contextNotFound ctxId))
  | some ctx =>
    match st.append user sid [userTurn input now, asstTurn snap ctx proposed behave now] with
    | .error _ => (st, .error .sessionIdentityMismatch)
    | .ok (st', rid) =>
      (st', .ok { response := turnResponse snap ctx proposed behave
                  agentLogs := turnLogs snap ctx proposed behave
                  agentsUsed := usedNames ctx proposed
                  sessionGuid := rid
                  contextGuid := ctxId })

/-- Concrete objects used to evaluate the theorems on executable inputs. -/
def demoStore : SessionStore := ⟨[], 0⟩

/-- A one-session store owned by user `alice`. -/
def demoStoreAlice : SessionStore := ⟨[("s1", ⟨"alice", []⟩)], 0⟩

/-- An empty Registry snapshot. -/
def demoSnap : RegistrySnapshot := ⟨[], []⟩

/-- A context with an empty allow-list. -/
def demoCtx : Context := ⟨[], []⟩

/-- A context allowing only the `Echo` capability. -/
def demoCtxEcho : Context := ⟨["Echo"], []⟩

/-- A context store with one `default` context allowing nothing. -/
def demoContexts : List (String × Context) := [("default", demoCtx)]

/-- A context store with one `default` context allowing `Echo`. -/
def demoContextsEcho : List (String × Context) := [("default", demoCtxEcho)]

/-- A handler pool in which every capability times out. -/
def demoBehave : Selection → HandlerBehavior := fun _ => HandlerBehavior.timedOut

/-- A handler pool in which every capability raises. -/
def demoRaise : Selection → HandlerBehavior := fun _ => HandlerBehavior.raised "boom"

/-- A selection proposing the `Echo` capability with no arguments. -/
def demoSel : Selection := ⟨"Echo", []⟩

/-- The store after one dispatch of `"hi"` against `demoStore`. -/
def demoStore1 : SessionStore :=
  ⟨[("session-0", ⟨"desktop", [userTurn "hi" 0, asstTurn demoSnap demoCtx [] demoBehave 0]⟩)], 1⟩

/-- The dispatch result of one dispatch of `"hi"` against `demoStore`. -/
def demoRes : DispatchResult :=
  ⟨turnResponse demoSnap demoCtx [] demoBehave, turnLogs demoSnap demoCtx [] demoBehave,
    usedNames demoCtx [], "session-0", "default"⟩

/-- A capability directory with one well-formed and one malformed file. -/
def demoFiles : List AgentFile :=
  [AgentFile.valid "echo_agent.py" ⟨"Echo", "Echoes the input back", [("text", "string")]⟩,
   AgentFile.malformed "broken_agent.py" "syntax error"]

theorem alookup_append {α : Type} (l : List (String × α)) (k : String) (v : α) (x : String) :
    alookup (l ++ [(k, v)]) x =
      match alookup l x with
      | some r => some r
      | none => if k = x then some v else none := by
  induction l with
  | nil => simp [alookup]
  | cons p rest ih =>
    by_cases h : p.1 = x
    · simp [alookup, h]
    · simp [alookup, h, ih]

theorem alookup_updateFirst_self {α : Type} (l : List (String × α)) (k : String) (v : α) :
    alookup (updateFirst k v l) k = (alookup l k).map (fun _ => v) := by
  induction l with
  | nil => simp [alookup, updateFirst]
  | cons p rest ih =>
    by_cases h : p.1 = k
    · simp [alookup, updateFirst, h]
    · simp [alookup, updateFirst, h, ih]

theorem alookup_updateFirst_ne {α : Type} (l : List (String × α)) (k x : String) (v : α)
    (hx : x ≠ k) :
    alookup (updateFirst k v l) x = alookup l x := by
  induction l with
  | nil => simp [updateFirst]
  | cons p rest ih =>
    by_cases h : p.1 = k
    · have hpx : ¬ p.1 = x := by rw [h]; exact fun hh => hx hh.symm
      simp [alookup, updateFirst, h, hpx, Ne.symm hx]
    · by_cases h2 : p.1 = x
      · simp [alookup, updateFirst, h, h2, hx]
      · simp [alookup, updateFirst, h, h2, hx, ih]

theorem append_empty (st : SessionStore) (user : String) (turns : List Turn) :
    st.append user "" turns =
      Except.ok ({ sessions := st.sessions ++ [(mintSessionId st.nextFresh, ⟨user, turns⟩)],
                   nextFresh := st.nextFresh + 1 }, mintSessionId st.nextFresh) := by
  simp [SessionStore.append]

theorem append_new (st : SessionStore) (user sid : String) (turns : List Turn)
    (hsid : sid ≠ "") (hlk : st.lookup sid = none) :
    st.append user sid turns =
      Except.ok ({ sessions := st.sessions ++ [(sid, ⟨user, turns⟩)],
                   nextFresh := st.nextFresh }, sid) := by
  simp [SessionStore.append, hsid, hlk]

theorem append_resume (st : SessionStore) (user sid : String) (turns : List Turn)
    (r : SessionRec) (hsid : sid ≠ "") (hlk : st.lookup sid = some r) (hown : r.owner = user) :
    st.append user sid turns =
      Except.ok ({ sessions := updateFirst sid ⟨r.owner, r.log ++ turns⟩ st.sessions,
                   nextFresh := st.nextFresh }, sid) := by
  simp [SessionStore.append, hsid, hlk, hown]

theorem append_mismatch (st : SessionStore) (user sid : String) (turns : List Turn)
    (r : SessionRec) (hsid : sid ≠ "") (hlk : st.lookup sid = some r) (hown : r.owner ≠ user) :
    st.append user sid turns = Except.error AppendError.sessionIdentityMismatch := by
  simp [SessionStore.append, hsid, hlk, hown]

theorem append_ok_of_owner (st : SessionStore) (user sid : String) (turns : List Turn)
    (howner : ∀ r, st.lookup sid = some r → r.owner = user) :
    ∃ st' rid, st.append user sid turns = Except.ok (st', rid) := by
  by_cases hsid : sid = ""
  · subst hsid
    exact ⟨_, _, append_empty st user turns⟩
  · cases hlk : st.lookup sid with
    | none => exact ⟨_, _, append_new st user sid turns hsid hlk⟩
    | some r => exact ⟨_, _, append_resume st user sid turns r hsid hlk (howner r hlk)⟩

theorem append_ok_parts (st : SessionStore) (user sid : String) (turns : List Turn)
    (st' : SessionStore) (rid : String) (hfresh : st.freshOk)
    (h : st.append user sid turns = Except.ok (st', rid)) :
    st'.history rid = st.history rid ++ turns ∧
    (∀ x, x ≠ rid → st'.lookup x = st.lookup x) := by
  by_cases hsid : sid = ""
  · subst hsid
    rw [append_empty st user turns] at h
    injection h with h1
    injection h1 with h2 h3
    subst h2
    subst h3
    have hnone : alookup st.sessions (mintSessionId st.nextFresh) = none := hfresh _ le_rfl
    constructor
    · simp [SessionStore.history, SessionStore.lookup, alookup_append, hnone]
    · intro x hx
      have hne : ¬ mintSessionId st.nextFresh = x := fun hh => hx hh.symm
      show alookup (st.sessions ++ [(mintSessionId st.nextFresh, ⟨user, turns⟩)]) x =
        alookup st.sessions x
      rw [alookup_append]
      cases hl : alookup st.sessions x with
      | some v => simp
      | none => simp [hne]
  · cases hlk : st.lookup sid with
    | none =>
      rw [append_new st user sid turns hsid hlk] at h
      injection h with h1
      injection h1 with h2 h3
      subst h2
      subst h3
      have hlk' : alookup st.sessions sid = none := hlk
      constructor
      · simp [SessionStore.history, SessionStore.lookup, alookup_append, hlk']
      · intro x hx
        have hne : ¬ sid = x := fun hh => hx hh.symm
        show alookup (st.sessions ++ [(sid, ⟨user, turns⟩)]) x = alookup st.sessions x
        rw [alookup_append]
        cases hl : alookup st.sessions x with
        | some v => simp
        | none => simp [hne]
    | some r =>
      by_cases hown : r.owner = user
      · rw [append_resume st user sid turns r hsid hlk hown] at h
        injection h with h1
        injection h1 with h2 h3
        subst h2
        subst h3
        have hlk' : alookup st.sessions sid = some r := hlk
        constructor
        · simp [SessionStore.history, SessionStore.lookup, alookup_updateFirst_self, hlk']
        · intro x hx
          show alookup (updateFirst sid ⟨r.owner, r.log ++ turns⟩ st.sessions) x =
            alookup st.sessions x
          exact alookup_updateFirst_ne st.sessions sid x _ hx
      · rw [append_mismatch st user sid turns r hsid hlk hown] at h
        exact absurd h (by simp)

theorem dispatch_ok_eq {snap : RegistrySnapshot} {contexts : List (String × Context)}
    {st : SessionStore} {user sid ctxId input : String} {now : Nat}
    {proposed : List Selection} {behave : Selection → HandlerBehavior}
    {ctx : Context} {st₁ : SessionStore} {rid : String}
    (hctx : clookup contexts ctxId = some ctx)
    (ha : st.append user sid [userTurn input now, asstTurn snap ctx proposed behave now] =
      Except.ok (st₁, rid)) :
    dispatch snap contexts st user sid ctxId input now proposed behave =
      (st₁, Except.ok ⟨turnResponse snap ctx proposed behave, turnLogs snap ctx proposed behave,
        usedNames ctx proposed, rid, ctxId⟩) := by
  simp [dispatch, hctx, ha]

theorem dispatch_ok_inv {snap : RegistrySnapshot} {contexts : List (String × Context)}
    {st : SessionStore} {user sid ctxId input : String} {now : Nat}
    {proposed : List Selection} {behave : Selection → HandlerBehavior}
    {st' : SessionStore} {res : DispatchResult}
    (h : dispatch snap contexts st user sid ctxId input now proposed behave =
      (st', Except.ok res)) :
    ∃ ctx rid, clookup contexts ctxId = some ctx ∧
      st.append user sid [userTurn input now, asstTurn snap ctx proposed behave now] =
        Except.ok (st', rid) ∧
      res = ⟨turnResponse snap ctx proposed behave, turnLogs snap ctx proposed behave,
        usedNames ctx proposed, rid, ctxId⟩ := by
  unfold dispatch at h
  split at h
  · simp at h
  · rename_i ctx hctx
    split at h
    · simp at h
    · rename_i st₁ rid ha
      rw [Prod.mk.injEq] at h
      obtain ⟨h1, h2⟩ := h
      subst h1
      injection h2 with h3
      exact ⟨ctx, rid, hctx, ha, h3.symm⟩

theorem outcomeLog_mem (snap : RegistrySnapshot) (ctx : Context) (proposed : List Selection)
    (behave : Selection → HandlerBehavior) (s : Selection) (hs : s ∈ allowedSel ctx proposed) :
    outcomeLog s.name (invokeSelected snap behave s) ∈ turnLogs snap ctx proposed behave := by
  simp only [turnLogs, turnOutcomes, List.mem_append, List.mem_map]
  right
  exact ⟨(s.name, invokeSelected snap behave s), ⟨s, hs, rfl⟩, rfl⟩

theorem mem_validDefs_of_valid {files : List AgentFile} {fn : String} {d : AgentDef}
    (h : AgentFile.valid fn d ∈ files) : d ∈ validDefs files := by
  induction files with
  | nil => cases h
  | cons f rest ih =>
    cases f with
    | valid fn' d' =>
      rcases List.mem_cons.mp h with heq | hmem
      · cases heq
        exact List.mem_cons_self _ _
      · exact List.mem_cons_of_mem _ (ih hmem)
    | malformed fn' e =>
      rcases List.mem_cons.mp h with heq | hmem
      · exact AgentFile.noConfusion heq
      · exact ih hmem

theorem loadInto_clean (files : List AgentFile) :
    ∀ snap : RegistrySnapshot,
      (∀ d ∈ validDefs files, d.name ≠ "") →
      (∀ d ∈ validDefs files, ∀ c ∈ snap.caps, c.name ≠ d.name) →
      ((validDefs files).map AgentDef.name).Nodup →
      (loadInto snap files).caps = snap.caps ++ (validDefs files).map toDescriptor ∧
      (loadInto snap files).failed = snap.failed ++ malformedEntries files := by
  induction files with
  | nil =>
    intro snap _ _ _
    simp [loadInto, validDefs, malformedEntries]
  | cons f rest ih =>
    intro snap h1 h2 hnd
    cases f with
    | malformed fn e =>
      obtain ⟨hc, hf⟩ := ih { snap with failed := snap.failed ++ [(fn, e)] }
        (by simpa [validDefs] using h1) (by simpa [validDefs] using h2)
        (by simpa [validDefs] using hnd)
      constructor
      · show (loadInto { snap with failed := snap.failed ++ [(fn, e)] } rest).caps = _
        rw [hc]
        simp [validDefs]
      · show (loadInto { snap with failed := snap.failed ++ [(fn, e)] } rest).failed = _
        rw [hf]
        simp [validDefs, malformedEntries, List.append_assoc]
    | valid fn d =>
      have hval : validDefs (AgentFile.valid fn d :: rest) = d :: validDefs rest := rfl
      have hdname : d.name ≠ "" := h1 d (by rw [hval]; exact List.mem_cons_self _ _)
      have hany : snap.caps.any (fun c => decide (c.name = d.name)) = false := by
        by_contra hb
        rw [Bool.not_eq_false, List.any_eq_true] at hb
        obtain ⟨c, hc, hcb⟩ := hb
        exact (h2 d (by rw [hval]; exact List.mem_cons_self _ _) c hc) (of_decide_eq_true hcb)
      have hstep : loadStep snap (AgentFile.valid fn d)
          = { snap with caps := snap.caps ++ [toDescriptor d] } := by
        simp [loadStep, hdname, hany]
      have hnotin : d.name ∉ (validDefs rest).map AgentDef.name := by
        rw [hval, List.map_cons, List.nodup_cons] at hnd
        exact hnd.1
      have hnd' : ((validDefs rest).map AgentDef.name).Nodup := by
        rw [hval, List.map_cons, List.nodup_cons] at hnd
        exact hnd.2
      obtain ⟨hc, hf⟩ := ih { snap with caps := snap.caps ++ [toDescriptor d] }
        (fun d' hd' => h1 d' (by rw [hval]; exact List.mem_cons_of_mem _ hd'))
        (fun d' hd' c hcm => by
          rcases List.mem_append.mp hcm with hcl | hcr
          · exact h2 d' (by rw [hval]; exact List.mem_cons_of_mem _ hd') c hcl
          · have hcd : c = toDescriptor d := by simpa using hcr
            subst hcd
            intro heq
            have hmm := List.mem_map_of_mem AgentDef.name hd'
            rw [← heq] at hmm
            exact hnotin hmm)
        hnd'
      constructor
      · show (loadInto (loadStep snap (AgentFile.valid fn d)) rest).caps = _
        rw [hstep, hc, hval]
        simp [List.append_assoc]
      · show (loadInto (loadStep snap (AgentFile.valid fn d)) rest).failed = _
        rw [hstep, hf]
        simp [malformedEntries]

theorem sendMessage_req_guid (s : ChatState) (now : Nat) (res : Except String ChatResponse)
    (req : ChatRequest) (h : (sendMessage s now res).2 = some req) :
    req.session_guid = if s.sessionGuid = "" then none else some s.sessionGuid := by
  unfold sendMessage at h
  by_cases hg : s.chatInput.trim = "" ∨ s.chatLoading = true
  · rw [if_pos hg] at h
    exact absurd h (by simp)
  · rw [if_neg hg] at h
    cases res with
    | ok r =>
      simp at h
      rw [← h]
    | error e =>
      simp at h
      rw [← h]

theorem sendMessage_error_guid (s : ChatState) (now : Nat) (e : String) :
    (sendMessage s now (Except.error e)).1.sessionGuid = s.sessionGuid := by
  by_cases hg : s.chatInput.trim = "" ∨ s.chatLoading = true
  · simp [sendMessage, hg]
  · simp [sendMessage, hg]

theorem sendMessage_ok_guid (s : ChatState) (now : Nat) (r : ChatResponse) :
    (sendMessage s now (Except.ok r)).1.sessionGuid =
      if s.chatInput.trim = "" ∨ s.chatLoading = true then s.sessionGuid
      else if r.session_guid = "" then s.sessionGuid else r.session_guid := by
  by_cases hg : s.chatInput.trim = "" ∨ s.chatLoading = true
  · simp [sendMessage, hg]
  · simp [sendMessage, hg]

/-- Claim C1 (counterexample): the claim that the response body of
`POST /api/rapp` consists exactly of `response`, `agent_logs`, `agents_used`,
`session_guid`, `context_guid` — no more and no fewer — is false on the code:
the client's declared `ChatResponse` also carries a `voice_response` field, so
a response with a voice response has six top-level fields. -/
theorem chatResponse_fields_counterexample :
    ¬ (∀ r : ChatResponse, (encodeChatResponse r).map Prod.fst = specClaimedResponseFields) := by
  intro h
  exact absurd (h ⟨"ok", some "spoken", [], [], "s", "c"⟩) (by decide)

/-- Claim C1 (amended): every `POST /api/rapp` request body consists exactly of
`user_input`, `user_guid`, `session_guid`, `context_guid`,
`conversation_history`, and every response body consists of `response`,
`agent_logs`, `agents_used`, `session_guid`, `context_guid`, plus an optional
`voice_response` field present exactly when a voice response is set. -/
theorem chat_surface_fields_amended (q : ChatRequest) (r : ChatResponse) :
    (encodeChatRequest q).map Prod.fst =
      ["user_input", "user_guid", "session_guid", "context_guid",
        "conversation_history"] ∧
    (encodeChatResponse r).map Prod.fst =
      (if r.voice_response.isSome then
        ["response", "voice_response", "agent_logs", "agents_used", "session_guid",
          "context_guid"]
       else specClaimedResponseFields) := by
  constructor
  · rfl
  · cases hv : r.voice_response with
    | some v => simp [encodeChatResponse, hv]
    | none => simp [encodeChatResponse, specClaimedResponseFields, hv]

/-- Claim C2: appending with an absent/empty session identifier yields the
freshly minted identifier `mintSessionId st.nextFresh`, which is not in use in
the store; appending with a presented identifier returns that identifier
unchanged and never advances the minting counter — minting happens only on the
empty-identifier path of `append`; and a dispatch presenting an empty
`session_guid` returns that fresh, previously-unused identifier in its
response. -/
theorem append_mints_fresh_session (st : SessionStore) (user : String) (turns : List Turn)
    (hfresh : st.freshOk) :
    (∃ st', st.append user "" turns = Except.ok (st', mintSessionId st.nextFresh) ∧
        st.lookup (mintSessionId st.nextFresh) = none) ∧
    (∀ sid st' rid, sid ≠ "" → st.append user sid turns = Except.ok (st', rid) →
        rid = sid ∧ st'.nextFresh = st.nextFresh) ∧
    (∀ snap contexts ctxId ctx input now proposed behave,
      clookup contexts ctxId = some ctx →
      ∃ st' res,
        dispatch snap contexts st user "" ctxId input now proposed behave =
          (st', Except.ok res) ∧
        res.sessionGuid = mintSessionId st.nextFresh ∧
        st.lookup res.sessionGuid = none) := by
  refine ⟨⟨_, append_empty st user turns, hfresh _ le_rfl⟩, ?_, ?_⟩
  · intro sid st' rid hsid h
    cases hlk : st.lookup sid with
    | none =>
      rw [append_new st user sid turns hsid hlk] at h
      injection h with h1
      injection h1 with h2 h3
      subst h2
      exact ⟨h3.symm, rfl⟩
    | some r =>
      by_cases hown : r.owner = user
      · rw [append_resume st user sid turns r hsid hlk hown] at h
        injection h with h1
        injection h1 with h2 h3
        subst h2
        exact ⟨h3.symm, rfl⟩
      · rw [append_mismatch st user sid turns r hsid hlk hown] at h
        exact absurd h (by simp)
  · intro snap contexts ctxId ctx input now proposed behave hctx
    have ha := append_empty st user [userTurn input now, asstTurn snap ctx proposed behave now]
    exact ⟨_, _, dispatch_ok_eq hctx ha, rfl, hfresh _ le_rfl⟩

theorem append_mints_fresh_session_witness :
    ∃ st', demoStore.append "desktop" "" [] = Except.ok (st', mintSessionId 0) ∧
      demoStore.lookup (mintSessionId 0) = none :=
  (append_mints_fresh_session demoStore "desktop" [] (fun _ _ => rfl)).1

/-- Claim C3: every successful dispatch appends exactly one request/response
pair — one user turn carrying the input and one assistant turn carrying the
composed response — to the history of the session it reports, and the session
log is append-only: every session's previous history is a prefix of its new
history. -/
theorem dispatch_appends_one_turn_pair (snap : RegistrySnapshot)
    (contexts : List (String × Context)) (st : SessionStore)
    (user sid ctxId input : String) (now : Nat) (proposed : List Selection)
    (behave : Selection → HandlerBehavior) (st' : SessionStore) (res : DispatchResult)
    (hfresh : st.freshOk)
    (h : dispatch snap contexts st user sid ctxId input now proposed behave =
      (st', Except.ok res)) :
    (∃ u a, u.role = Role.user ∧ u.text = input ∧ a.role = Role.assistant ∧
        a.text = res.response ∧
        st'.history res.sessionGuid = st.history res.sessionGuid ++ [u, a]) ∧
    (∀ x, ∃ t, st'.history x = st.history x ++ t) := by
  obtain ⟨ctx, rid, hctx, ha, hres⟩ := dispatch_ok_inv h
  obtain ⟨h1, h2⟩ := append_ok_parts st user sid _ st' rid hfresh ha
  subst hres
  constructor
  · exact ⟨userTurn input now, asstTurn snap ctx proposed behave now, rfl, rfl, rfl, rfl, h1⟩
  · intro x
    by_cases hx : x = rid
    · subst hx
      exact ⟨_, h1⟩
    · refine ⟨[], ?_⟩
      rw [List.append_nil]
      show ((st'.lookup x).map SessionRec.log).getD [] =
        ((st.lookup x).map SessionRec.log).getD []
      rw [h2 x hx]

theorem dispatch_appends_one_turn_pair_witness :
    (∃ u a, u.role = Role.user ∧ u.text = "hi" ∧ a.role = Role.assistant ∧
        a.text = demoRes.response ∧
        demoStore1.history demoRes.sessionGuid =
          demoStore.history demoRes.sessionGuid ++ [u, a]) ∧
    (∀ x, ∃ t, demoStore1.history x = demoStore.history x ++ t) :=
  dispatch_appends_one_turn_pair demoSnap demoContexts demoStore "desktop" "" "default" "hi" 0
    [] demoBehave demoStore1 demoRes (fun _ _ => rfl) rfl

/-- Claim C4: presenting an existing session together with a user identity
other than its creator is rejected with `sessionIdentityMismatch`, and the
rejected dispatch leaves the session store — hence the session's log — exactly
as it was. -/
theorem append_rejects_identity_mismatch (st : SessionStore) (user' sid : String)
    (turns : List Turn) (r : SessionRec)
    (hsid : sid ≠ "") (hlk : st.lookup sid = some r) (hown : r.owner ≠ user') :
    st.append user' sid turns = Except.error AppendError.sessionIdentityMismatch ∧
    (∀ snap contexts ctxId ctx input now proposed behave,
      clookup contexts ctxId = some ctx →
      dispatch snap contexts st user' sid ctxId input now proposed behave =
        (st, Except.error DispatchError.sessionIdentityMismatch)) := by
  have hm : ∀ ts : List Turn,
      st.append user' sid ts = Except.error AppendError.sessionIdentityMismatch :=
    fun ts => append_mismatch st user' sid ts r hsid hlk hown
  refine ⟨hm turns, ?_⟩
  intro snap contexts ctxId ctx input now proposed behave hctx
  simp [dispatch, hctx, hm]

theorem append_rejects_identity_mismatch_witness :
    demoStoreAlice.append "bob" "s1" [] =
      Except.error AppendError.sessionIdentityMismatch :=
  (append_rejects_identity_mismatch demoStoreAlice "bob" "s1" [] ⟨"alice", []⟩ (by decide) rfl
    (by decide)).1

/-- Claim C5: when one selected capability raises or times out, its failure is
converted into a typed failure outcome whose trace line is recorded in the
agent logs, every other selected capability of the turn is still invoked (each
has its outcome recorded and its name listed in `agents_used`), and the
dispatch still returns a successful result. -/
theorem dispatch_isolates_capability_failure (snap : RegistrySnapshot)
    (contexts : List (String × Context)) (st : SessionStore)
    (user sid ctxId input : String) (now : Nat) (proposed : List Selection)
    (behave : Selection → HandlerBehavior) (ctx : Context) (s₀ : Selection) (e₀ : String)
    (hctx : clookup contexts ctxId = some ctx)
    (howner : ∀ r, st.lookup sid = some r → r.owner = user)
    (hs₀ : s₀ ∈ allowedSel ctx proposed)
    (hfail : behave s₀ = HandlerBehavior.raised e₀ ∨ behave s₀ = HandlerBehavior.timedOut) :
    ∃ st' res,
      dispatch snap contexts st user sid ctxId input now proposed behave =
        (st', Except.ok res) ∧
      (∃ msg, invokeSelected snap behave s₀ = CapabilityOutcome.failure msg ∧
        outcomeLog s₀.name (CapabilityOutcome.failure msg) ∈ res.agentLogs) ∧
      (∀ s ∈ allowedSel ctx proposed,
        outcomeLog s.name (invokeSelected snap behave s) ∈ res.agentLogs) ∧
      res.agentsUsed = usedNames ctx proposed := by
  obtain ⟨st', rid, ha⟩ := append_ok_of_owner st user sid _ howner
  refine ⟨st', _, dispatch_ok_eq hctx ha, ?_, ?_, rfl⟩
  · have hfl : ∃ msg, invokeSelected snap behave s₀ = CapabilityOutcome.failure msg := by
      cases hres : snap.resolve s₀.name with
      | some c =>
        rcases hfail with hf | hf
        · exact ⟨"handler raised: " ++ e₀, by simp [invokeSelected, hres, hf, invokeCap]⟩
        · exact ⟨"handler timed out", by simp [invokeSelected, hres, hf, invokeCap]⟩
      | none => exact ⟨"capability not found: " ++ s₀.name, by simp [invokeSelected, hres]⟩
    obtain ⟨msg, hmsg⟩ := hfl
    refine ⟨msg, hmsg, ?_⟩
    rw [← hmsg]
    exact outcomeLog_mem snap ctx proposed behave s₀ hs₀
  · intro s hs
    exact outcomeLog_mem snap ctx proposed behave s hs

theorem dispatch_isolates_capability_failure_witness :
    ∃ st' res,
      dispatch demoSnap demoContextsEcho demoStore "desktop" "" "default" "ping" 0 [demoSel]
          demoRaise = (st', Except.ok res) ∧
      (∃ msg, invokeSelected demoSnap demoRaise demoSel = CapabilityOutcome.failure msg ∧
        outcomeLog demoSel.name (CapabilityOutcome.failure msg) ∈ res.agentLogs) ∧
      (∀ s ∈ allowedSel demoCtxEcho [demoSel],
        outcomeLog s.name (invokeSelected demoSnap demoRaise s) ∈ res.agentLogs) ∧
      res.agentsUsed = usedNames demoCtxEcho [demoSel] :=
  dispatch_isolates_capability_failure demoSnap demoContextsEcho demoStore "desktop" ""
    "default" "ping" 0 [demoSel] demoRaise demoCtxEcho demoSel "boom" rfl
    (fun _ h => nomatch h) (by decide) (Or.inl rfl)

/-- Claim C6: every proposed capability whose name is not in the active
context's allow-list is dropped — its name never appears among the invoked
capabilities, whatever the Registry contains, and a dropped-capability entry is
recorded in the trace — and every capability actually invoked is in the
allow-list. -/
theorem dispatch_enforces_allowlist (snap : RegistrySnapshot)
    (contexts : List (String × Context)) (st : SessionStore)
    (user sid ctxId input : String) (now : Nat) (proposed : List Selection)
    (behave : Selection → HandlerBehavior) (ctx : Context)
    (hctx : clookup contexts ctxId = some ctx)
    (howner : ∀ r, st.lookup sid = some r → r.owner = user) :
    ∃ st' res,
      dispatch snap contexts st user sid ctxId input now proposed behave =
        (st', Except.ok res) ∧
      (∀ s ∈ proposed, s.name ∉ ctx.allowedAgents →
        s.name ∉ res.agentsUsed ∧
        ("Dropped disallowed capability: " ++ s.name) ∈ res.agentLogs) ∧
      (∀ n ∈ res.agentsUsed, n ∈ ctx.allowedAgents) := by
  obtain ⟨st', rid, ha⟩ := append_ok_of_owner st user sid _ howner
  refine ⟨st', _, dispatch_ok_eq hctx ha, ?_, ?_⟩
  · intro s hs hnot
    constructor
    · intro hmem
      simp only [usedNames, allowedSel, List.mem_map, List.mem_filter] at hmem
      obtain ⟨s', ⟨hs', hdec⟩, hname⟩ := hmem
      exact hnot (hname ▸ of_decide_eq_true hdec)
    · simp only [turnLogs, droppedLogs, List.mem_append, List.mem_map, List.mem_filter]
      left
      exact ⟨s, ⟨hs, decide_eq_true hnot⟩, rfl⟩
  · intro n hn
    simp only [usedNames, allowedSel, List.mem_map, List.mem_filter] at hn
    obtain ⟨s', ⟨hs', hdec⟩, hname⟩ := hn
    exact hname ▸ of_decide_eq_true hdec

theorem dispatch_enforces_allowlist_witness :
    ∃ st' res,
      dispatch demoSnap demoContexts demoStore "desktop" "" "default" "ping" 0
          [⟨"Evil", []⟩] demoBehave = (st', Except.ok res) ∧
      (∀ s ∈ [(⟨"Evil", []⟩ : Selection)], s.name ∉ demoCtx.allowedAgents →
        s.name ∉ res.agentsUsed ∧
        ("Dropped disallowed capability: " ++ s.name) ∈ res.agentLogs) ∧
      (∀ n ∈ res.agentsUsed, n ∈ demoCtx.allowedAgents) :=
  dispatch_enforces_allowlist demoSnap demoContexts demoStore "desktop" "" "default" "ping" 0
    [⟨"Evil", []⟩] demoBehave demoCtx rfl (fun _ h => nomatch h)

/-- Claim C7: loading a capability directory whose well-formed definitions have
non-empty, pairwise-distinct names loads exactly those definitions (in
discovery order) and reports exactly the malformed files in the failed-entry
list — a malformed file never aborts the load of the others — and `GET /agents`
afterwards lists exactly the successfully loaded capabilities. -/
theorem registry_load_collects_failures (files : List AgentFile)
    (hne : ∀ d ∈ validDefs files, d.name ≠ "")
    (hnd : ((validDefs files).map AgentDef.name).Nodup) :
    listAgents (loadRegistry files) = (validDefs files).map toDescriptor ∧
    (loadRegistry files).failed = malformedEntries files := by
  obtain ⟨h1, h2⟩ := loadInto_clean files ⟨[], []⟩ hne
    (fun d _ c hc => absurd hc (List.not_mem_nil c)) hnd
  constructor
  · simpa [loadRegistry, listAgents] using h1
  · simpa [loadRegistry] using h2

theorem registry_load_collects_failures_witness :
    listAgents (loadRegistry demoFiles) = (validDefs demoFiles).map toDescriptor ∧
    (loadRegistry demoFiles).failed = malformedEntries demoFiles :=
  registry_load_collects_failures demoFiles (by decide) (by decide)

/-- Claim C8: a capability registered from a source definition is listed by
`GET /agents` with exactly the name, description and parameter schema the
source definition declared — load followed by list is the identity on the
declared metadata. -/
theorem registry_descriptor_roundtrip (files : List AgentFile) (fn : String) (d : AgentDef)
    (hmem : AgentFile.valid fn d ∈ files)
    (hne : ∀ d' ∈ validDefs files, d'.name ≠ "")
    (hnd : ((validDefs files).map AgentDef.name).Nodup) :
    ∃ c ∈ listAgents (loadRegistry files),
      c.name = d.name ∧ c.description = d.description ∧ c.parameters = d.parameters := by
  obtain ⟨h1, _⟩ := loadInto_clean files ⟨[], []⟩ hne
    (fun d' _ c hc => absurd hc (List.not_mem_nil c)) hnd
  refine ⟨toDescriptor d, ?_, rfl, rfl, rfl⟩
  show toDescriptor d ∈ listAgents (loadRegistry files)
  have h1' : listAgents (loadRegistry files) = (validDefs files).map toDescriptor := by
    simpa [loadRegistry, listAgents] using h1
  rw [h1']
  exact List.mem_map_of_mem toDescriptor (mem_validDefs_of_valid hmem)

theorem registry_descriptor_roundtrip_witness :
    ∃ c ∈ listAgents (loadRegistry demoFiles),
      c.name = "Echo" ∧ c.description = "Echoes the input back" ∧
      c.parameters = [("text", "string")] :=
  registry_descriptor_roundtrip demoFiles "echo_agent.py"
    ⟨"Echo", "Echoes the input back", [("text", "string")]⟩ (by decide) (by decide) (by decide)

/-- Claim C9: `sendMessage` issues no request and leaves the chat state
untouched whenever the trimmed chat input is empty or a chat request is
already in flight. -/
theorem sendMessage_guard_no_request (s : ChatState) (now : Nat)
    (res : Except String ChatResponse)
    (h : s.chatInput.trim = "" ∨ s.chatLoading = true) :
    sendMessage s now res = (s, none) := by
  unfold sendMessage
  rw [if_pos h]

theorem sendMessage_guard_no_request_witness :
    sendMessage ⟨[], "hello", "", true⟩ 0 (Except.error "down") =
      (⟨[], "hello", "", true⟩, none) :=
  sendMessage_guard_no_request ⟨[], "hello", "", true⟩ 0 (Except.error "down") (Or.inr rfl)

/-- Claim C10: `clearChat` resets the stored session identifier to the empty
string, the next `sendMessage` after `clearChat` presents a null
`session_guid` in any request it issues, a failed chat request never changes
the stored session identifier, and the stored identifier is overwritten only
by a truthy `session_guid` taken from a successful response. -/
theorem sessionGuid_update_policy (s : ChatState) (now : Nat)
    (res : Except String ChatResponse) :
    ((clearChat s).sessionGuid = "") ∧
    (∀ req, (sendMessage (clearChat s) now res).2 = some req → req.session_guid = none) ∧
    (∀ e, res = Except.error e → (sendMessage s now res).1.sessionGuid = s.sessionGuid) ∧
    ((sendMessage s now res).1.sessionGuid = s.sessionGuid ∨
      ∃ r, res = Except.ok r ∧ r.session_guid ≠ "" ∧
        (sendMessage s now res).1.sessionGuid = r.session_guid) := by
  refine ⟨rfl, ?_, ?_, ?_⟩
  · intro req hreq
    have h := sendMessage_req_guid (clearChat s) now res req hreq
    simpa [clearChat] using h
  · intro e he
    subst he
    exact sendMessage_error_guid s now e
  · cases res with
    | error e => exact Or.inl (sendMessage_error_guid s now e)
    | ok r =>
      by_cases hg : s.chatInput.trim = "" ∨ s.chatLoading = true
      · left
        rw [sendMessage_ok_guid]
        simp [hg]
      · by_cases hr : r.session_guid = ""
        · left
          rw [sendMessage_ok_guid]
          simp [hg, hr]
        · right
          exact ⟨r, rfl, hr, by rw [sendMessage_ok_guid]; simp [hg, hr]⟩

theorem sessionGuid_update_policy_witness :
    (sendMessage ⟨[], "hi", "abc", false⟩ 0 (Except.error "down")).1.sessionGuid = "abc" :=
  (sessionGuid_update_policy ⟨[], "hi", "abc", false⟩ 0 (Except.error "down")).2.2.1 "down" rfl

end RappOS
